import Mathlib

/-!
Shallow embedding of `src/backend/fhir_nlp_service.py` (class `FHIRNLPProcessor`).

Strings are handled as lower-cased `List Char` (Python `query.lower()` is
modelled with `lowerList`, per-character ASCII lowercasing).  The regular
expressions used by the source
are of three fixed shapes — literal-then-digits (`over (\d+)` …),
digits-literal-digits (`between (\d+) and (\d+)`, `(\d+) to (\d+)`) and
digits-whitespace-literal (`(\d+)\s+patients`) — and are embedded as
leftmost-match searchers with greedy (maximal) digit / whitespace runs,
which coincides with Python `re.search` semantics for these patterns
(backtracking a greedy `\d+`/`\s+` run can never help, because the character
that follows the run in each pattern is not of the run's class).

Dates: the source computes `datetime.now() - timedelta(days=365*v)` and
formats it as `YYYY-MM-DD`.  We model a date as its day number (`Int`), so a
`timedelta(days=k)` subtraction is integer subtraction; the `strftime`
formatting does not change the day.  `datetime.now()` is a *global* read in
the source (`build_fhir_query` takes only the intent); the embedding makes
the ambient clock value at call time an explicit argument `now`.
-/

/-- Numeric value of a digit string, as Python `int()` on the capture of `(\d+)`. -/
def natOfDigits (l : List Char) : Nat :=
  l.foldl (fun a c => 10 * a + (c.toNat - 48)) 0

/-- Python `query.lower()`, as a character list: ASCII lowercasing of each
character (the queries of interest are ASCII). -/
def lowerList (s : String) : List Char := s.toList.map Char.toLower

/-- Substring containment, Python `needle in hay`. -/
def containsSub (needle : List Char) : List Char → Bool
  | [] => needle.isEmpty
  | c :: t => needle.isPrefixOf (c :: t) || containsSub needle t

/-- Leftmost-position search: try the matcher `f` at every suffix, left to
right, as `re.search` tries every start position. -/
def searchOpt {α : Type} (f : List Char → Option α) : List Char → Option α
  | [] => f []
  | c :: t =>
    match f (c :: t) with
    | some x => some x
    | none => searchOpt f t

/-- Match `lit(\d+)` anchored at the start of `s` (e.g. `lit = "over "`),
capturing the greedy digit run. -/
def tryLitNum (lit : List Char) (s : List Char) : Option Nat :=
  if lit.isPrefixOf s then
    let rest := s.drop lit.length
    let ds := rest.takeWhile Char.isDigit
    if ds.isEmpty then none else some (natOfDigits ds)
  else none

/-- Match `(\d+)mid(\d+)` anchored at the start of `s`
(e.g. `mid = " to "` or `mid = " and "`), capturing both digit runs. -/
def tryNumMidNum (mid : List Char) (s : List Char) : Option (Nat × Nat) :=
  let ds := s.takeWhile Char.isDigit
  if ds.isEmpty then none
  else
    let r1 := s.dropWhile Char.isDigit
    if mid.isPrefixOf r1 then
      let r2 := r1.drop mid.length
      let ds2 := r2.takeWhile Char.isDigit
      if ds2.isEmpty then none else some (natOfDigits ds, natOfDigits ds2)
    else none

/-- Match `between (\d+) and (\d+)` anchored at the start of `s`. -/
def tryBetween (s : List Char) : Option (Nat × Nat) :=
  if ("between ".toList).isPrefixOf s then
    tryNumMidNum (" and ".toList) (s.drop 8)
  else none

/-- Match `(\d+)\s+patients` anchored at the start of `s`
(the count-limit pattern of `extract_intent`). -/
def tryCount (s : List Char) : Option Nat :=
  let ds := s.takeWhile Char.isDigit
  if ds.isEmpty then none
  else
    let r1 := s.dropWhile Char.isDigit
    let ws := r1.takeWhile Char.isWhitespace
    if ws.isEmpty then none
    else
      let r2 := r1.dropWhile Char.isWhitespace
      if ("patients".toList).isPrefixOf r2 then some (natOfDigits ds) else none

/-- The `age_filter` dicts of the source (`{"type": "gt"/"lt", "value": v}` and
`{"type": "range", "min": mn, "max": mx}`). -/
inductive AgeFilter : Type
  | gt (value : Nat)
  | lt (value : Nat)
  | range (min max : Nat)
deriving DecidableEq, Repr

/-- One value of `condition_mappings` (`{"code", "display", "system"}`). -/
structure ConditionData where
  code : String
  display : String
  system : String
deriving DecidableEq, Repr

/-- `QueryIntent` dataclass (lines 20–26 of the source): `action`,
`resource_type`, `conditions`, optional `age_filter`, optional `count_limit`.
There is no `modifiers` field in the source dataclass. -/
structure QueryIntent where
  action : String
  resource_type : String
  conditions : List ConditionData
  age_filter : Option AgeFilter
  count_limit : Option Nat
deriving DecidableEq, Repr

/-- `self.condition_mappings`, in Python dict insertion order. -/
def condition_mappings : List (String × ConditionData) :=
  [ ("diabetes", ⟨"E11", "Type 2 diabetes mellitus", "http://hl7.org/fhir/sid/icd-10"⟩),
    ("diabetic", ⟨"E11", "Type 2 diabetes mellitus", "http://hl7.org/fhir/sid/icd-10"⟩),
    ("hypertension", ⟨"I10", "Essential hypertension", "http://hl7.org/fhir/sid/icd-10"⟩),
    ("high blood pressure", ⟨"I10", "Essential hypertension", "http://hl7.org/fhir/sid/icd-10"⟩),
    ("heart disease", ⟨"I25", "Chronic ischemic heart disease", "http://hl7.org/fhir/sid/icd-10"⟩),
    ("asthma", ⟨"J45", "Asthma", "http://hl7.org/fhir/sid/icd-10"⟩),
    ("cancer", ⟨"C80", "Malignant neoplasm", "http://hl7.org/fhir/sid/icd-10"⟩),
    ("depression", ⟨"F32", "Major depressive disorder", "http://hl7.org/fhir/sid/icd-10"⟩) ]

/-- The age-pattern loop of `extract_intent` (lines 73–89): `self.age_patterns`
tried in order — `over (\d+)` gt, `above (\d+)` gt, `under (\d+)` lt,
`below (\d+)` lt, `between (\d+) and (\d+)` range, `(\d+) to (\d+)` range —
first pattern that matches wins (`break`). -/
def extractAge (l : List Char) : Option AgeFilter :=
  match searchOpt (tryLitNum ("over ".toList)) l with
  | some v => some (.gt v)
  | none =>
  match searchOpt (tryLitNum ("above ".toList)) l with
  | some v => some (.gt v)
  | none =>
  match searchOpt (tryLitNum ("under ".toList)) l with
  | some v => some (.lt v)
  | none =>
  match searchOpt (tryLitNum ("below ".toList)) l with
  | some v => some (.lt v)
  | none =>
  match searchOpt tryBetween l with
  | some (mn, mx) => some (.range mn mx)
  | none =>
  match searchOpt (tryNumMidNum (" to ".toList)) l with
  | some (mn, mx) => some (.range mn mx)
  | none => none

/-- `FHIRNLPProcessor.extract_intent` (lines 50–103). -/
def extract_intent (query : String) : QueryIntent :=
  let l := lowerList query
  let action :=
    if ["show", "display", "list"].any (fun w => containsSub w.toList l) then "show"
    else if ["get", "retrieve", "fetch"].any (fun w => containsSub w.toList l) then "get"
    else if ["count", "how many"].any (fun w => containsSub w.toList l) then "count"
    else "find"
  let resource_type := if containsSub ("patient".toList) l then "Patient" else "Patient"
  let conditions :=
    (condition_mappings.filter (fun p => containsSub p.1.toList l)).map (·.2)
  let age_filter := extractAge l
  let count_limit := searchOpt tryCount l
  ⟨action, resource_type, conditions, age_filter, count_limit⟩

/-- A birth-date query-parameter value as emitted at lines 119, 121, 125 of
the source: `le{date}`, `ge{date}`, or `ge{min_date}&birthdate=le{max_date}`.
Dates are day numbers (see the header note). -/
inductive BirthdateParam : Type
  | le (d : Int)
  | ge (d : Int)
  | geLe (g l : Int)
deriving DecidableEq, Repr

/-- The set of birth dates a `BirthdateParam` admits, by the standard FHIR
search-prefix semantics the emitted `le`/`ge` strings denote. -/
def BirthdateParam.admits : BirthdateParam → Int → Bool
  | .le d0, d => decide (d ≤ d0)
  | .ge d0, d => decide (d0 ≤ d)
  | .geLe g l, d => decide (g ≤ d) && decide (d ≤ l)

/-- A value of the `query_params` dict. -/
inductive ParamValue : Type
  | str (s : String)
  | date (b : BirthdateParam)
  | num (n : Nat)
deriving DecidableEq, Repr

/-- `FHIRNLPProcessor.build_fhir_query` (lines 105–131), as the association
list of the `query_params` dict in insertion order.  `now` is the value of
the global `datetime.now()` at call time (the source does not take it as a
parameter); `datetime.now() - timedelta(days=365*v)` is `now - 365*v`. -/
def build_fhir_query (intent : QueryIntent) (now : Int) : List (String × ParamValue) :=
  [("resourceType", ParamValue.str intent.resource_type)]
  ++ (if intent.conditions.isEmpty then []
      else [("condition", ParamValue.str
        (String.intercalate ","
          (intent.conditions.map (fun c => c.system ++ "|" ++ c.code))))])
  ++ (match intent.age_filter with
      | some (.gt v) => [("birthdate", ParamValue.date (.le (now - 365 * v)))]
      | some (.lt v) => [("birthdate", ParamValue.date (.ge (now - 365 * v)))]
      | some (.range mn mx) =>
          [("birthdate", ParamValue.date (.geLe (now - 365 * mx) (now - 365 * mn)))]
      | none => [])
  ++ (match intent.count_limit with
      | some k => if k = 0 then [] else [("_count", ParamValue.num k)]
      | none => [])

/-- Dict lookup on the association list. -/
def getParam (ps : List (String × ParamValue)) (k : String) : Option ParamValue :=
  (ps.find? (fun p => p.1 == k)).map (·.2)

/-- One base patient record of the hard-coded roster (lines 138–144). -/
structure BasePatient where
  id : String
  name : String
  birthDate : String
  gender : String
deriving DecidableEq, Repr

/-- `base_patients` (lines 138–144). -/
def base_patients : List BasePatient :=
  [ ⟨"1", "John Doe", "1970-05-15", "male"⟩,
    ⟨"2", "Jane Smith", "1965-08-22", "female"⟩,
    ⟨"3", "Robert Johnson", "1980-12-03", "male"⟩,
    ⟨"4", "Mary Williams", "1955-03-10", "female"⟩,
    ⟨"5", "David Brown", "1975-11-28", "male"⟩ ]

/-- `int(patient["birthDate"][:4])` (line 148). -/
def yearOf (s : String) : Nat := natOfDigits (s.toList.take 4)

/-- `age = 2025 - birth_year` (line 149). -/
def ageOf (p : BasePatient) : Int := 2025 - (yearOf p.birthDate : Int)

/-- The age-filter test of the generator loop (lines 152–159): a patient is
kept iff none of the `continue` branches fires. -/
def passesAge : Option AgeFilter → Int → Bool
  | none, _ => true
  | some (.gt v), a => decide ((v : Int) < a)
  | some (.lt v), a => decide (a < (v : Int))
  | some (.range mn mx), a => decide ((mn : Int) ≤ a) && decide (a ≤ (mx : Int))

/-- A condition entry attached to a generated patient (lines 164–174),
flattened to its coding fields and subject reference. -/
structure ConditionEntry where
  system : String
  code : String
  display : String
  subjectRef : String
deriving DecidableEq, Repr

/-- The `patient_resource` dict (lines 176–184). -/
structure PatientResource where
  id : String
  nameGiven : List String
  nameFamily : String
  birthDate : String
  gender : String
  conditions : List ConditionEntry
  age : Int
deriving DecidableEq, Repr

/-- Python `str.split()` with no argument: split on runs of whitespace,
dropping empty pieces.  `cur` accumulates the current word reversed. -/
def pySplitAux : List Char → List Char → List (List Char)
  | [], cur => if cur.isEmpty then [] else [cur.reverse]
  | c :: t, cur =>
    if c.isWhitespace then
      if cur.isEmpty then pySplitAux t [] else cur.reverse :: pySplitAux t []
    else pySplitAux t (c :: cur)

/-- Python `s.split()`. -/
def pySplit (s : String) : List String :=
  (pySplitAux s.toList []).map (fun w => String.mk w)

/-- Build the `patient_resource` for one base patient (lines 161–184):
`name.split()[0]` / `name.split()[1]`, and one condition entry per intent
condition. -/
def mkResource (intent : QueryIntent) (p : BasePatient) : PatientResource :=
  { id := p.id
    nameGiven := [(pySplit p.name).getD 0 ""]
    nameFamily := (pySplit p.name).getD 1 ""
    birthDate := p.birthDate
    gender := p.gender
    conditions := intent.conditions.map
      (fun c => ⟨c.system, c.code, c.display, "Patient/" ++ p.id⟩)
    age := ageOf p }

/-- Truthiness + bound test of the `break` (line 189):
`intent.count_limit and len(patients) >= intent.count_limit`. -/
def countBreak (intent : QueryIntent) (len : Nat) : Bool :=
  match intent.count_limit with
  | some k => !(k = 0 : Bool) && decide (k ≤ len)
  | none => false

/-- The generator loop over `base_patients` (lines 146–190), with the
accumulated `patients` list made explicit. -/
def genLoop (intent : QueryIntent) : List BasePatient → List PatientResource → List PatientResource
  | [], acc => acc
  | p :: rest, acc =>
    if passesAge intent.age_filter (ageOf p) then
      let acc' := acc ++ [mkResource intent p]
      if countBreak intent acc'.length then acc'
      else genLoop intent rest acc'
    else genLoop intent rest acc

/-- A bundle entry `{"resource": patient}` (line 196). -/
structure BundleEntry where
  resource : PatientResource
deriving DecidableEq, Repr

/-- The returned FHIR `Bundle` dict (lines 192–197). -/
structure Bundle where
  resourceType : String
  type : String
  total : Nat
  entry : List BundleEntry
deriving DecidableEq, Repr

/-- `FHIRNLPProcessor.generate_mock_fhir_response` (lines 133–197). -/
def generate_mock_fhir_response (intent : QueryIntent) : Bundle :=
  let patients := genLoop intent base_patients []
  { resourceType := "Bundle"
    type := "searchset"
    total := patients.length
    entry := patients.map (⟨·⟩) }

/-- Spec-side characterization of the count-limit trigger: the text contains
a `(\d+)\s+patients` phrase — a nonempty digit run, then a nonempty
whitespace run, then the literal `patients`, somewhere in the string. -/
def HasCountPhrase (l : List Char) : Prop :=
  ∃ a ds ws b, l = a ++ ds ++ ws ++ "patients".toList ++ b
    ∧ ds ≠ [] ∧ ws ≠ []
    ∧ (∀ c ∈ ds, c.isDigit = true) ∧ (∀ c ∈ ws, c.isWhitespace = true)

/-! ## Helper lemmas -/

theorem isPrefixOf_exists : ∀ {l₁ l₂ : List Char}, l₁.isPrefixOf l₂ = true → ∃ t, l₁ ++ t = l₂
  | [], l₂, _ => ⟨l₂, rfl⟩
  | _ :: _, [], h => by simp [List.isPrefixOf] at h
  | a :: l₁, b :: l₂, h => by
    simp only [List.isPrefixOf, Bool.and_eq_true, beq_iff_eq] at h
    obtain ⟨rfl, h2⟩ := h
    obtain ⟨t, rfl⟩ := isPrefixOf_exists h2
    exact ⟨t, rfl⟩

theorem isPrefixOf_self_append : ∀ (l t : List Char), l.isPrefixOf (l ++ t) = true
  | [], _ => by simp [List.isPrefixOf]
  | a :: l, t => by simp [List.isPrefixOf, isPrefixOf_self_append l t]

theorem whitespace_not_digit (c : Char) (h : c.isWhitespace = true) : c.isDigit = false := by
  simp only [Char.isWhitespace, Bool.or_eq_true, decide_eq_true_eq] at h
  rcases h with ((h | h) | h) | h <;> subst h <;> decide

/-! ## Claims -/

/-- C9: for every input text, the `resource_type` of the intent returned by
`extract_intent` is the string `"Patient"` — both branches of the source's
resource-type extraction (lines 62–65) assign `"Patient"`, so no input ever
yields Condition, Observation, or any other resource type. -/
theorem extract_intent_resource_type_always_Patient (q : String) :
    (extract_intent q).resource_type = "Patient" := by
  simp [extract_intent]

/-- C4: `extract_intent` is total (a Lean function on all of `String`), and
when no action keyword, no condition term, no age pattern and no count
pattern matches the lower-cased text, every field takes its default or
absent value: action `"find"`, resource type `"Patient"`, empty conditions,
no age filter, no count limit. -/
theorem extract_intent_defaults (q : String)
    (h1 : (["show", "display", "list"].any fun w => containsSub w.toList (lowerList q)) = false)
    (h2 : (["get", "retrieve", "fetch"].any fun w => containsSub w.toList (lowerList q)) = false)
    (h3 : (["count", "how many"].any fun w => containsSub w.toList (lowerList q)) = false)
    (h4 : ∀ p ∈ condition_mappings, containsSub p.1.toList (lowerList q) = false)
    (h5 : extractAge (lowerList q) = none)
    (h6 : searchOpt tryCount (lowerList q) = none) :
    extract_intent q = ⟨"find", "Patient", [], none, none⟩ := by
  have hc : condition_mappings.filter (fun p => containsSub p.1.toList (lowerList q)) = [] :=
    List.filter_eq_nil_iff.mpr fun p hp => by rw [h4 p hp]; simp
  simp only [extract_intent, h1, h2, h3, h5, h6, hc]
  simp

/-- Witness for C4: the empty string matches nothing and yields the
all-default intent. -/
theorem extract_intent_defaults_witness :
    extract_intent "" = ⟨"find", "Patient", [], none, none⟩ :=
  extract_intent_defaults "" (by decide) (by decide) (by decide) (by decide)
    (by decide) (by decide)

/-- C3 (amended): the source's `build_fhir_query(self, intent)` does not take
the clock as a parameter — it reads `datetime.now()` globally (lines 119–124).
Modelling that ambient clock value as `now`, the output is determined by
`(intent, now)`; and whenever the intent has no age filter, the clock does
not influence the output at all. -/
theorem build_fhir_query_no_age_clock_independent (intent : QueryIntent) (t₁ t₂ : Int)
    (h : intent.age_filter = none) :
    build_fhir_query intent t₁ = build_fhir_query intent t₂ := by
  unfold build_fhir_query
  rw [h]

/-- Witness for C3 (amended): a query with no age phrase compiles identically
at two different ambient clock values. -/
theorem build_fhir_query_no_age_clock_independent_witness :
    build_fhir_query (extract_intent "show asthma patients") 0
      = build_fhir_query (extract_intent "show asthma patients") 9999 :=
  build_fhir_query_no_age_clock_independent _ 0 9999 (by decide)

/-- Counterexample for C3: the source's `build_fhir_query` takes only the
intent, yet its output varies with the ambient `datetime.now()` — the same
intent compiled at two clock values gives different parameters, so the
result is not reproducible from the caller-supplied inputs alone. -/
theorem build_fhir_query_clock_dependent_counterexample :
    build_fhir_query (extract_intent "patients over 50") 0
      ≠ build_fhir_query (extract_intent "patients over 50") 365 := by decide

/-- The `birthdate` entry of the compiled query, by age-filter shape
(lines 117–125 of the source). -/
theorem getParam_build_birthdate (intent : QueryIntent) (now : Int) :
    getParam (build_fhir_query intent now) "birthdate"
      = (match intent.age_filter with
        | some (.gt v) => some (ParamValue.date (.le (now - 365 * v)))
        | some (.lt v) => some (ParamValue.date (.ge (now - 365 * v)))
        | some (.range mn mx) => some (ParamValue.date (.geLe (now - 365 * mx) (now - 365 * mn)))
        | none => none) := by
  unfold build_fhir_query getParam
  cases hc : intent.conditions.isEmpty <;>
    rcases haf : intent.age_filter with _ | af <;> (try cases af) <;>
      rcases hcl : intent.count_limit with _ | k <;>
        simp [List.find?_append, List.find?]

/-- C1 (amended): for an intent whose age filter is greater-than(v),
`build_fhir_query` emits `birthdate = le(now − 365·v)` — an *inclusive*
upper bound only `365·v` days before `now` (the source's year arithmetic is
`timedelta(days=365*value)`), not a strict bound at `now − 365·(v+1)`; in
particular the boundary date itself, the birth date of a person aged exactly
`v` 365-day years, is admitted rather than excluded. -/
theorem build_gt_emits_inclusive_le (intent : QueryIntent) (now : Int) (v : Nat)
    (h : intent.age_filter = some (.gt v)) :
    getParam (build_fhir_query intent now) "birthdate"
      = some (ParamValue.date (.le (now - 365 * v)))
    ∧ (BirthdateParam.le (now - 365 * v)).admits (now - 365 * v) = true := by
  refine ⟨?_, by simp [BirthdateParam.admits]⟩
  rw [getParam_build_birthdate, h]

/-- Witness for C1 (amended): "patients over 50" at clock 0. -/
theorem build_gt_emits_inclusive_le_witness :
    getParam (build_fhir_query (extract_intent "patients over 50") 0) "birthdate"
      = some (ParamValue.date (.le (0 - 365 * (50 : Nat))))
    ∧ (BirthdateParam.le (0 - 365 * (50 : Nat))).admits (0 - 365 * (50 : Nat)) = true :=
  build_gt_emits_inclusive_le (extract_intent "patients over 50") 0 50 (by decide)

/-- Counterexample for C1: for greater-than(50) at clock 0 the emitted filter
is `le (-18250)`; it admits the birth date `-18250` (a person aged exactly
50 in 365-day years), which is not strictly before the claimed boundary
`now − 365·(50+1) = -18615`, so the admitted set is not the claimed one. -/
theorem build_gt_admits_age_exactly_N_counterexample :
    getParam (build_fhir_query (extract_intent "patients over 50") 0) "birthdate"
      = some (ParamValue.date (.le (-18250)))
    ∧ (BirthdateParam.le (-18250)).admits (-18250) = true
    ∧ ¬ ((-18250 : Int) < 0 - 365 * 51) :=
  ⟨by decide, by decide, by decide⟩

/-- C2 (amended): for an intent produced by `extract_intent` whose age filter
is range(min,max) *with min ≤ max*, the emitted birth-date range
`ge(now − 365·max) … le(now − 365·min)` has its lower bound at or below its
upper bound.  `extract_intent` does not enforce min ≤ max, so reversed text
such as "between 70 and 40" produces an inverted range. -/
theorem build_range_ordered_when_min_le_max (q : String) (now : Int) (mn mx : Nat)
    (h : (extract_intent q).age_filter = some (.range mn mx)) (hle : mn ≤ mx) :
    getParam (build_fhir_query (extract_intent q) now) "birthdate"
      = some (ParamValue.date (.geLe (now - 365 * mx) (now - 365 * mn)))
    ∧ now - 365 * (mx : Int) ≤ now - 365 * (mn : Int) := by
  refine ⟨?_, by omega⟩
  rw [getParam_build_birthdate, h]

/-- Witness for C2 (amended): "between 40 and 70" at clock 0. -/
theorem build_range_ordered_when_min_le_max_witness :
    getParam (build_fhir_query (extract_intent "patients between 40 and 70") 0) "birthdate"
      = some (ParamValue.date (.geLe (0 - 365 * (70 : Nat)) (0 - 365 * (40 : Nat))))
    ∧ (0 : Int) - 365 * (70 : Nat) ≤ 0 - 365 * (40 : Nat) :=
  build_range_ordered_when_min_le_max "patients between 40 and 70" 0 40 70
    (by decide) (by decide)

/-- Counterexample for C2: `extract_intent "patients between 70 and 40"`
yields range(70,40), and `build_fhir_query` then emits a birth-date range
whose lower (ge) bound `-14600` exceeds its upper (le) bound `-25550`. -/
theorem build_range_inverted_counterexample :
    (extract_intent "patients between 70 and 40").age_filter = some (.range 70 40)
    ∧ getParam (build_fhir_query (extract_intent "patients between 70 and 40") 0) "birthdate"
        = some (ParamValue.date (.geLe (-14600) (-25550)))
    ∧ ¬ ((-14600 : Int) ≤ -25550) :=
  ⟨by decide, by decide, by decide⟩

/-- C5 (amended): the source `QueryIntent` carries no modifiers field, and
`build_fhir_query` never emits a `clinical-status` parameter — its keys are
drawn from `resourceType`, `condition`, `birthdate`, `_count` only — so the
keyword "active" has no clinical-status effect for any intent or clock. -/
theorem build_never_emits_clinical_status (intent : QueryIntent) (now : Int) :
    getParam (build_fhir_query intent now) "clinical-status" = none := by
  unfold build_fhir_query getParam
  cases hc : intent.conditions.isEmpty <;>
    rcases haf : intent.age_filter with _ | af <;> (try cases af) <;>
      rcases hcl : intent.count_limit with _ | k <;>
        simp [List.find?_append, List.find?]

/-- Counterexample for C5: even for text containing the keyword "active",
the compiled query has no `clinical-status = active` parameter (and the
extracted intent has only the five fields of the source dataclass, none of
them a modifiers set). -/
theorem no_clinical_status_for_active_text_counterexample :
    getParam (build_fhir_query (extract_intent "show active asthma patients") 0)
      "clinical-status" = none := by decide

/-- C6 (amended): the source's `age_patterns` list has no "age N" template
and no equal-shape filter at all (only over/above → gt, under/below → lt,
between-and / N-to-M → range), and `build_fhir_query` handles only those
three shapes.  Text whose only age phrase is "age N" matches none of the six
patterns, so it yields no age filter and the compiled query has no
birth-date parameter — there is no one-year-window behaviour. -/
theorem age_template_absent_no_birthdate (q : String) (now : Int)
    (h1 : searchOpt (tryLitNum ("over ".toList)) (lowerList q) = none)
    (h2 : searchOpt (tryLitNum ("above ".toList)) (lowerList q) = none)
    (h3 : searchOpt (tryLitNum ("under ".toList)) (lowerList q) = none)
    (h4 : searchOpt (tryLitNum ("below ".toList)) (lowerList q) = none)
    (h5 : searchOpt tryBetween (lowerList q) = none)
    (h6 : searchOpt (tryNumMidNum (" to ".toList)) (lowerList q) = none) :
    (extract_intent q).age_filter = none
    ∧ getParam (build_fhir_query (extract_intent q) now) "birthdate" = none := by
  have hage : (extract_intent q).age_filter = none := by
    simp only [extract_intent, extractAge, h1, h2, h3, h4, h5, h6]
  exact ⟨hage, by rw [getParam_build_birthdate, hage]⟩

/-- Witness for C6 (amended): "patients age 40" matches no age pattern. -/
theorem age_template_absent_no_birthdate_witness :
    (extract_intent "patients age 40").age_filter = none
    ∧ getParam (build_fhir_query (extract_intent "patients age 40") 0) "birthdate" = none :=
  age_template_absent_no_birthdate "patients age 40" 0 (by decide) (by decide)
    (by decide) (by decide) (by decide) (by decide)

/-- Counterexample for C6: the text "patients age 40" contains the "age N"
phrase the claim describes, yet `extract_intent` yields *no* age filter
(there is no equal(40) and no one-year window in the compiled query). -/
theorem age_template_counterexample :
    (extract_intent "patients age 40").age_filter = none
    ∧ getParam (build_fhir_query (extract_intent "patients age 40") 0) "birthdate" = none :=
  ⟨by decide, by decide⟩

theorem takeWhile_append_stop {α : Type} (p : α → Bool) :
    ∀ (xs : List α) (y : α) (ys : List α), (∀ c ∈ xs, p c = true) → p y = false →
      (xs ++ y :: ys).takeWhile p = xs
  | [], y, ys, _, hy => by simp [List.takeWhile_cons, hy]
  | x :: xs, y, ys, hx, hy => by
    have hpx : p x = true := hx x (by simp)
    simp only [List.cons_append, List.takeWhile_cons, hpx, if_true]
    rw [takeWhile_append_stop p xs y ys (fun c hc => hx c (by simp [hc])) hy]

theorem dropWhile_append_stop {α : Type} (p : α → Bool) :
    ∀ (xs : List α) (y : α) (ys : List α), (∀ c ∈ xs, p c = true) → p y = false →
      (xs ++ y :: ys).dropWhile p = y :: ys
  | [], y, ys, _, hy => by simp [List.dropWhile_cons, hy]
  | x :: xs, y, ys, hx, hy => by
    have hpx : p x = true := hx x (by simp)
    simp only [List.cons_append, List.dropWhile_cons, hpx, if_true]
    exact dropWhile_append_stop p xs y ys (fun c hc => hx c (by simp [hc])) hy

/-- Anchored soundness for the count pattern: a successful `tryCount` match
decomposes the string as digits, whitespace, `patients`, remainder. -/
theorem tryCount_sound {s : List Char} {n : Nat} (h : tryCount s = some n) :
    ∃ ds ws b, s = ds ++ ws ++ "patients".toList ++ b ∧ ds ≠ [] ∧ ws ≠ []
      ∧ (∀ c ∈ ds, c.isDigit = true) ∧ (∀ c ∈ ws, c.isWhitespace = true) := by
  simp only [tryCount] at h
  cases h1 : (s.takeWhile Char.isDigit).isEmpty with
  | true => rw [h1] at h; simp at h
  | false =>
    rw [h1] at h
    simp only [Bool.false_eq_true, if_false] at h
    cases h2 : ((s.dropWhile Char.isDigit).takeWhile Char.isWhitespace).isEmpty with
    | true => rw [h2] at h; simp at h
    | false =>
      rw [h2] at h
      simp only [Bool.false_eq_true, if_false] at h
      cases h3 : ("patients".toList).isPrefixOf
          ((s.dropWhile Char.isDigit).dropWhile Char.isWhitespace) with
      | false => rw [h3] at h; simp at h
      | true =>
        obtain ⟨b, hb⟩ := isPrefixOf_exists h3
        refine ⟨s.takeWhile Char.isDigit,
          (s.dropWhile Char.isDigit).takeWhile Char.isWhitespace, b, ?_, ?_, ?_, ?_, ?_⟩
        · have e2 : s.dropWhile Char.isDigit
              = (s.dropWhile Char.isDigit).takeWhile Char.isWhitespace
                ++ ("patients".toList ++ b) := by
            conv_lhs =>
              rw [← List.takeWhile_append_dropWhile Char.isWhitespace (s.dropWhile Char.isDigit)]
            rw [← hb]
          conv_lhs => rw [← List.takeWhile_append_dropWhile Char.isDigit s, e2]
          simp [List.append_assoc]
        · simpa [List.isEmpty_iff] using h1
        · simpa [List.isEmpty_iff] using h2
        · exact fun c hc => List.mem_takeWhile_imp hc
        · exact fun c hc => List.mem_takeWhile_imp hc

theorem searchOpt_isSome_of_try {α : Type} (f : List Char → Option α) (l : List Char)
    (h : (f l).isSome = true) : (searchOpt f l).isSome = true := by
  cases l with
  | nil => simpa [searchOpt] using h
  | cons c t =>
    unfold searchOpt
    cases hf : f (c :: t) with
    | some x => simp
    | none => rw [hf] at h; simp at h

theorem searchOpt_isSome_tail {α : Type} (f : List Char → Option α) (c : Char) (t : List Char)
    (h : (searchOpt f t).isSome = true) : (searchOpt f (c :: t)).isSome = true := by
  unfold searchOpt
  cases hf : f (c :: t) <;> simp [h]

/-- Search-level soundness: a successful count-pattern search anywhere in the
string yields a `HasCountPhrase` decomposition. -/
theorem searchCount_sound : ∀ (l : List Char),
    (searchOpt tryCount l).isSome = true → HasCountPhrase l
  | [], h => by simp [searchOpt, tryCount] at h
  | c :: t, h => by
    unfold searchOpt at h
    cases htc : tryCount (c :: t) with
    | some n =>
      obtain ⟨ds, ws, b, he, hds, hws, hd, hw⟩ := tryCount_sound htc
      exact ⟨[], ds, ws, b, by simpa using he, hds, hws, hd, hw⟩
    | none =>
      rw [htc] at h
      simp only at h
      obtain ⟨a, ds, ws, b, he, hds, hws, hd, hw⟩ := searchCount_sound t h
      exact ⟨c :: a, ds, ws, b, by simp [he], hds, hws, hd, hw⟩

/-- Anchored completeness: `tryCount` succeeds at the start of an exact
digits-whitespace-`patients` phrase. -/
theorem tryCount_at_phrase (ds ws b : List Char) (hds : ds ≠ []) (hws : ws ≠ [])
    (hd : ∀ c ∈ ds, c.isDigit = true) (hw : ∀ c ∈ ws, c.isWhitespace = true) :
    (tryCount (ds ++ ws ++ "patients".toList ++ b)).isSome = true := by
  obtain ⟨w, ws', rfl⟩ : ∃ w ws', ws = w :: ws' := by
    cases ws with
    | nil => exact absurd rfl hws
    | cons w ws' => exact ⟨w, ws', rfl⟩
  have hpat : "patients".toList = 'p' :: "atients".toList := by decide
  have hwd : Char.isDigit w = false := whitespace_not_digit w (hw w (by simp))
  have hlist : ds ++ (w :: ws') ++ "patients".toList ++ b
      = ds ++ (w :: (ws' ++ ('p' :: ("atients".toList ++ b)))) := by
    rw [hpat]
    simp [List.append_assoc]
  rw [hlist]
  have htake : ((ds ++ (w :: (ws' ++ ('p' :: ("atients".toList ++ b))))).takeWhile Char.isDigit)
      = ds :=
    takeWhile_append_stop Char.isDigit ds w _ hd hwd
  have hdrop : ((ds ++ (w :: (ws' ++ ('p' :: ("atients".toList ++ b))))).dropWhile Char.isDigit)
      = w :: (ws' ++ ('p' :: ("atients".toList ++ b))) :=
    dropWhile_append_stop Char.isDigit ds w _ hd hwd
  have hpn : Char.isWhitespace 'p' = false := by decide
  have htake2 : ((w :: (ws' ++ ('p' :: ("atients".toList ++ b)))).takeWhile Char.isWhitespace)
      = w :: ws' := by
    have h0 := takeWhile_append_stop Char.isWhitespace (w :: ws') 'p'
      ("atients".toList ++ b) hw hpn
    simpa using h0
  have hdrop2 : ((w :: (ws' ++ ('p' :: ("atients".toList ++ b)))).dropWhile Char.isWhitespace)
      = 'p' :: ("atients".toList ++ b) := by
    have h0 := dropWhile_append_stop Char.isWhitespace (w :: ws') 'p'
      ("atients".toList ++ b) hw hpn
    simpa using h0
  have hpre : ("patients".toList).isPrefixOf ('p' :: ("atients".toList ++ b)) = true := by
    rw [hpat, ← List.cons_append]
    exact isPrefixOf_self_append _ _
  simp only [tryCount]
  rw [htake, hdrop, htake2, hdrop2, hpre]
  simp [List.isEmpty_iff, hds]

/-- Search-level completeness: a digits-whitespace-`patients` phrase anywhere
in the string makes the count-pattern search succeed. -/
theorem searchCount_complete : ∀ (a ds ws b : List Char), ds ≠ [] → ws ≠ [] →
    (∀ c ∈ ds, c.isDigit = true) → (∀ c ∈ ws, c.isWhitespace = true) →
    (searchOpt tryCount (a ++ ds ++ ws ++ "patients".toList ++ b)).isSome = true
  | [], ds, ws, b, hds, hws, hd, hw => by
    simpa using searchOpt_isSome_of_try tryCount _ (tryCount_at_phrase ds ws b hds hws hd hw)
  | c :: a, ds, ws, b, hds, hws, hd, hw => by
    have ih := searchCount_complete a ds ws b hds hws hd hw
    simpa using searchOpt_isSome_tail tryCount c _ ih

/-- C7 (amended): `count_limit` is present exactly when the lower-cased text
contains a `(\d+)\s+patients` phrase (nonempty digit run, nonempty
whitespace run, then `patients`).  The captured integer is nonnegative but
may be zero — "0 patients" yields `count_limit = 0`, so "absent or a
*positive* integer" does not hold. -/
theorem count_limit_present_iff_phrase (q : String) :
    ((extract_intent q).count_limit).isSome = true ↔ HasCountPhrase (lowerList q) := by
  have hcl : (extract_intent q).count_limit = searchOpt tryCount (lowerList q) := by
    simp [extract_intent]
  rw [hcl]
  constructor
  · exact searchCount_sound (lowerList q)
  · rintro ⟨a, ds, ws, b, he, hds, hws, hd, hw⟩
    rw [he]
    exact searchCount_complete a ds ws b hds hws hd hw

/-- Witness for C7 (amended): "3 patients" has a count phrase. -/
theorem count_limit_present_iff_phrase_witness :
    HasCountPhrase (lowerList "3 patients") :=
  (count_limit_present_iff_phrase "3 patients").mp (by decide)

/-- Counterexample for C7: the text "0 patients" makes `count_limit` present
with value 0, which is not a positive integer. -/
theorem count_limit_zero_counterexample :
    (extract_intent "0 patients").count_limit = some 0 ∧ ¬ (0 < 0) :=
  ⟨by decide, by decide⟩

/-- Every resource the generator loop adds has passed the age-filter test
(lines 151–159: a failing patient is skipped by `continue`). -/
theorem genLoop_all_pass (intent : QueryIntent) :
    ∀ (ps : List BasePatient) (acc : List PatientResource),
      (∀ r ∈ acc, passesAge intent.age_filter r.age = true) →
      ∀ r ∈ genLoop intent ps acc, passesAge intent.age_filter r.age = true
  | [], acc, hacc => by simpa [genLoop] using hacc
  | p :: rest, acc, hacc => by
    simp only [genLoop]
    cases hp : passesAge intent.age_filter (ageOf p) with
    | false =>
      simp only [Bool.false_eq_true, if_false]
      exact genLoop_all_pass intent rest acc hacc
    | true =>
      simp only [if_true]
      have hacc' : ∀ r ∈ acc ++ [mkResource intent p],
          passesAge intent.age_filter r.age = true := by
        intro r hr
        rcases List.mem_append.mp hr with h | h
        · exact hacc r h
        · have he : r = mkResource intent p := by simpa using h
          subst he
          simpa [mkResource] using hp
      cases hb : countBreak intent (acc ++ [mkResource intent p]).length with
      | true => simp only [if_true]; exact hacc'
      | false =>
        simp only [Bool.false_eq_true, if_false]
        exact genLoop_all_pass intent rest _ hacc'

/-- With a nonzero count limit `k`, the loop never grows the list beyond `k`
(the `break` at lines 188–190 fires as soon as the length reaches `k`). -/
theorem genLoop_length_le (intent : QueryIntent) (k : Nat)
    (hk : intent.count_limit = some k) (hk0 : 0 < k) :
    ∀ (ps : List BasePatient) (acc : List PatientResource),
      acc.length < k → (genLoop intent ps acc).length ≤ k
  | [], acc, h => by simpa [genLoop] using Nat.le_of_lt h
  | p :: rest, acc, h => by
    simp only [genLoop]
    cases hp : passesAge intent.age_filter (ageOf p) with
    | false =>
      simp only [Bool.false_eq_true, if_false]
      exact genLoop_length_le intent k hk hk0 rest acc h
    | true =>
      simp only [if_true]
      have hlen : (acc ++ [mkResource intent p]).length = acc.length + 1 := by simp
      cases hb : countBreak intent (acc ++ [mkResource intent p]).length with
      | true =>
        simp only [if_true]
        omega
      | false =>
        simp only [Bool.false_eq_true, if_false]
        apply genLoop_length_le intent k hk hk0 rest
        have hnb : ¬ (k ≤ acc.length + 1) := by
          intro hle
          have hcb : countBreak intent (acc ++ [mkResource intent p]).length = true := by
            simp [countBreak, hk, hlen, hle, Nat.pos_iff_ne_zero.mp hk0]
          rw [hb] at hcb
          exact Bool.false_ne_true hcb
        omega

/-- The loop appends, in roster order, a sublist of the resources built from
the remaining base patients. -/
theorem genLoop_sublist (intent : QueryIntent) :
    ∀ (ps : List BasePatient) (acc : List PatientResource),
      ∃ s, genLoop intent ps acc = acc ++ s ∧ s.Sublist (ps.map (mkResource intent))
  | [], acc => ⟨[], by simp [genLoop], by simp⟩
  | p :: rest, acc => by
    simp only [genLoop]
    cases hp : passesAge intent.age_filter (ageOf p) with
    | false =>
      simp only [Bool.false_eq_true, if_false]
      obtain ⟨s, hs, hsub⟩ := genLoop_sublist intent rest acc
      exact ⟨s, hs, by simpa using hsub.cons _⟩
    | true =>
      simp only [if_true]
      cases hb : countBreak intent (acc ++ [mkResource intent p]).length with
      | true =>
        simp only [if_true]
        exact ⟨[mkResource intent p], rfl, by
          simp only [List.map_cons]
          exact List.Sublist.cons₂ (mkResource intent p)
            (List.nil_sublist (rest.map (mkResource intent)))⟩
      | false =>
        simp only [Bool.false_eq_true, if_false]
        obtain ⟨s, hs, hsub⟩ := genLoop_sublist intent rest (acc ++ [mkResource intent p])
        refine ⟨mkResource intent p :: s, ?_, ?_⟩
        · rw [hs]; simp
        · simp only [List.map_cons]
          exact List.Sublist.cons₂ (mkResource intent p) hsub

/-- C8 (amended): every record in the bundle satisfies the intent's age
predicate (so re-filtering the entries by that predicate is the identity)
and carries exactly one condition entry per intent condition with the same
code/display/system; `total` equals the number of entries; and when
`count_limit` is present *and positive* the bundle has at most that many
entries.  A zero `count_limit` (from "0 patients") is falsy in the source's
`if intent.count_limit:` test (line 189) and does not truncate. -/
theorem generate_mock_bundle_consistent (intent : QueryIntent) :
    (∀ e ∈ (generate_mock_fhir_response intent).entry,
        passesAge intent.age_filter e.resource.age = true
        ∧ e.resource.conditions = intent.conditions.map
            (fun c => ⟨c.system, c.code, c.display, "Patient/" ++ e.resource.id⟩))
    ∧ (generate_mock_fhir_response intent).entry.filter
        (fun e => passesAge intent.age_filter e.resource.age)
        = (generate_mock_fhir_response intent).entry
    ∧ (∀ k, intent.count_limit = some k → 0 < k →
        (generate_mock_fhir_response intent).entry.length ≤ k)
    ∧ (generate_mock_fhir_response intent).total
        = (generate_mock_fhir_response intent).entry.length := by
  have hpass : ∀ r ∈ genLoop intent base_patients [],
      passesAge intent.age_filter r.age = true :=
    genLoop_all_pass intent base_patients [] (by intro r hr; simp at hr)
  have hprov : ∀ r ∈ genLoop intent base_patients [],
      ∃ p ∈ base_patients, r = mkResource intent p := by
    obtain ⟨s, hs, hsub⟩ := genLoop_sublist intent base_patients []
    intro r hr
    rw [hs] at hr
    simp only [List.nil_append] at hr
    have hm : r ∈ base_patients.map (mkResource intent) := hsub.subset hr
    obtain ⟨p, hp, he⟩ := List.mem_map.mp hm
    exact ⟨p, hp, he.symm⟩
  have hmem : ∀ e ∈ (generate_mock_fhir_response intent).entry,
      e.resource ∈ genLoop intent base_patients [] := by
    intro e he
    simp only [generate_mock_fhir_response, List.mem_map] at he
    obtain ⟨r, hr, rfl⟩ := he
    exact hr
  refine ⟨?_, ?_, ?_, ?_⟩
  · intro e he
    refine ⟨hpass e.resource (hmem e he), ?_⟩
    obtain ⟨p, _, hep⟩ := hprov e.resource (hmem e he)
    rw [hep]
    rfl
  · exact List.filter_eq_self.mpr fun e he => hpass e.resource (hmem e he)
  · intro k hk hk0
    have hlen := genLoop_length_le intent k hk hk0 base_patients [] (by simpa using hk0)
    simpa [generate_mock_fhir_response] using hlen
  · simp [generate_mock_fhir_response]

/-- Witness for C8 (amended): "show 2 patients over 50" — count limit 2 is
positive, so the bundle has at most 2 entries. -/
theorem generate_mock_bundle_consistent_witness :
    (generate_mock_fhir_response (extract_intent "show 2 patients over 50")).entry.length ≤ 2 :=
  (generate_mock_bundle_consistent (extract_intent "show 2 patients over 50")).2.2.1 2
    (by decide) (by decide)

/-- Counterexample for C8: the intent extracted from "0 patients" has
`count_limit` present with value 0, yet the generated bundle has 5 entries —
more than `count_limit` — because Python's `if intent.count_limit:` treats 0
as absent. -/
theorem generate_mock_bundle_count_zero_counterexample :
    (extract_intent "0 patients").count_limit = some 0
    ∧ (generate_mock_fhir_response (extract_intent "0 patients")).entry.length = 5
    ∧ ¬ ((5 : Nat) ≤ 0) :=
  ⟨by decide, by decide, by decide⟩

/-- C10: for every intent the bundle has at most 5 entries, drawn in fixed
order (a sublist) from the hard-coded 5-patient roster `base_patients`, and
each entry's reported `age` is 2025 minus the record's birth year —
`generate_mock_fhir_response` takes no clock input at all (lines 146–149
hard-code `age = 2025 - birth_year`), so ages are independent of the current
date. -/
theorem generate_mock_bundle_roster (intent : QueryIntent) :
    (generate_mock_fhir_response intent).entry.length ≤ 5
    ∧ ((generate_mock_fhir_response intent).entry.map (fun e => e.resource)).Sublist
        (base_patients.map (mkResource intent))
    ∧ ∀ e ∈ (generate_mock_fhir_response intent).entry,
        ∃ p ∈ base_patients, e.resource = mkResource intent p
          ∧ e.resource.age = 2025 - (yearOf p.birthDate : Int) := by
  obtain ⟨s, hs, hsub⟩ := genLoop_sublist intent base_patients []
  simp only [List.nil_append] at hs
  have hmap : (generate_mock_fhir_response intent).entry.map (fun e => e.resource) = s := by
    simp only [generate_mock_fhir_response, hs, List.map_map]
    exact List.map_id' s
  refine ⟨?_, ?_, ?_⟩
  · have h5 : s.length ≤ (base_patients.map (mkResource intent)).length := hsub.length_le
    have hel : (generate_mock_fhir_response intent).entry.length = s.length := by
      simp [generate_mock_fhir_response, hs]
    rw [hel]
    simpa [base_patients] using h5
  · rw [hmap]
    exact hsub
  · intro e he
    simp only [generate_mock_fhir_response, List.mem_map] at he
    obtain ⟨r, hr, rfl⟩ := he
    rw [hs] at hr
    have hm : r ∈ base_patients.map (mkResource intent) := hsub.subset hr
    obtain ⟨p, hp, hpe⟩ := List.mem_map.mp hm
    exact ⟨p, hp, hpe.symm, by rw [← hpe]; rfl⟩

/-- Witness for C10: the first roster patient appears in the unfiltered
bundle and its age is 2025 − 1970. -/
theorem generate_mock_bundle_roster_witness :
    ∃ p ∈ base_patients,
      (BundleEntry.mk (mkResource (extract_intent "patients") ⟨"1", "John Doe", "1970-05-15", "male"⟩)).resource
          = mkResource (extract_intent "patients") p
        ∧ (BundleEntry.mk (mkResource (extract_intent "patients") ⟨"1", "John Doe", "1970-05-15", "male"⟩)).resource.age
          = 2025 - (yearOf p.birthDate : Int) :=
  (generate_mock_bundle_roster (extract_intent "patients")).2.2 _ (by decide)
